import Mathlib

/-!
Verification of the fdas3 AHRS400 acquisition pipeline.

The definitions below are a shallow embedding of the C sources:
* the checksum framer `ahrs_get_msg` and its helpers (devices/ahrs400/ahrs400.c,
  the revision with reception timestamps);
* the raw-to-physical unit converters and `ahrs_parse_angle`;
* the handshake commands `ahrs_set_polled`, `ahrs_ping`, `ahrs_set_mode`,
  `ahrs_set_continuous` and the `main` startup sequence of ahrs400-read.c;
* the output fan-out `output_mavlink_msg` / `log_text` and the main read loop;
* `get_time_us` (devices/utils.h) and `logwrite` (mavlog.c).

Byte streams are modeled as `List Nat` (each element one byte, 0..255); the
blocking byte source is the list, end-of-stream is its end.  The host clock is
modeled as a function `clk : Nat → Nat` from sample index (the number of
`get_time_us` calls already made) to the value returned.
-/

/-- The AHRS400 frame header sentinel, `AHRS_DATA_HEADER 0xFF`. -/
def AHRS_DATA_HEADER : Nat := 255

/-- The angle-mode payload length, `AHRS_ANGLE_PAYLOAD_LEN 28`. -/
def AHRS_ANGLE_PAYLOAD_LEN : Nat := 28

/-- C `checksum(uint8_t *payload, unsigned size)`: sums the payload bytes in a
`uint8_t` accumulator, i.e. modulo 256.  The caller passes the first `size`
bytes of the work buffer; here the list itself is that prefix. -/
def checksum (payload : List Nat) : Nat :=
  payload.foldl (fun acc b => (acc + b) % 256) 0

/-- C `ahrs_search_header`: read bytes until one equals `AHRS_DATA_HEADER`;
returns the stream after the consumed header, or `none` on end-of-stream
(the C function returns -1 there). -/
def ahrs_search_header : List Nat → Option (List Nat)
  | [] => none
  | b :: rest =>
    if b = AHRS_DATA_HEADER then some rest else ahrs_search_header rest

/-- The rescan loop of `ahrs_get_msg` (`for (i=0; i<sizeof work; i++)`):
index of the first byte equal to `AHRS_DATA_HEADER`, scanning from index 0. -/
def find_header_idx : List Nat → Option Nat
  | [] => none
  | b :: rest =>
    if b = AHRS_DATA_HEADER then some 0
    else (find_header_idx rest).map (fun i => i + 1)

/-- Result of a successful `ahrs_get_msg` call: the stored payload, the value
left in `*recv_timestamp`, the part of the stream not consumed, and the number
of checksum failures recovered from before acceptance (resync events). -/
structure GetMsgResult where
  payload : List Nat
  timestamp : Nat
  rest : List Nat
  resyncs : Nat
deriving Repr, DecidableEq

/-- One iteration of the `for (;;)` loop of C `ahrs_get_msg`: if no header is
carried over, scan the stream for a header byte; sample the clock into
`*recv_timestamp`; `fread` the `size + 1 - work_ptr` bytes needed to fill the
`uint8_t work[size+1]` buffer (failure, including the `fread` degenerate case
of a zero-byte request, returns -1, here `none`); accept iff the mod-256 sum
of the first `size` bytes equals `work[size]`; otherwise rescan the buffer for
a header byte.  On finding one at index `i` the C code does
`memmove(work, work+i+1, sizeof(work)-i-1)` and sets the `uint8_t` cursor
`work_ptr = sizeof(work)-i-1`, i.e. `(size - i) % 256`: the bytes kept for the
next iteration are the first `(size - i) % 256` of the moved suffix.
`carried` holds exactly the first `work_ptr` bytes of the C buffer.
`continue_` is the next loop iteration. -/
def get_msg_body (size : Nat) (clk : Nat → Nat)
    (continue_ : List Nat → Nat → Bool → List Nat → Nat → Option GetMsgResult)
    (stream : List Nat) (tick : Nat) (headerFound : Bool)
    (carried : List Nat) (resyncs : Nat) : Option GetMsgResult :=
  match if headerFound then some stream else ahrs_search_header stream with
  | none => none
  | some stream1 =>
    let ts := clk tick
    let need := size + 1 - carried.length
    if need = 0 ∨ stream1.length < need then none
    else
      let work := carried ++ stream1.take need
      let stream2 := stream1.drop need
      if checksum (work.take size) = work.getD size 0 then
        some ⟨work.take size, ts, stream2, resyncs⟩
      else
        match find_header_idx work with
        | some i =>
          continue_ stream2 (tick + 1) true
            ((work.drop (i + 1)).take ((size - i) % 256)) (resyncs + 1)
        | none => continue_ stream2 (tick + 1) false [] (resyncs + 1)

/-- The `for (;;)` loop of C `ahrs_get_msg`, fuel-indexed.  Each iteration
that loops again consumes at least one stream byte, so fuel
`stream.length + 2` is never exhausted. -/
def get_msg_go (size : Nat) (clk : Nat → Nat) :
    Nat → List Nat → Nat → Bool → List Nat → Nat → Option GetMsgResult
  | 0, _, _, _, _, _ => none
  | fuel + 1, stream, tick, headerFound, carried, resyncs =>
    get_msg_body size clk (get_msg_go size clk fuel)
      stream tick headerFound carried resyncs

/-- C `ahrs_get_msg(file, size, payload, recv_timestamp)` on a stream whose
pending bytes are `stream`, with the next clock sample index `t0`. -/
def ahrs_get_msg (size : Nat) (clk : Nat → Nat) (stream : List Nat)
    (t0 : Nat) : Option GetMsgResult :=
  get_msg_go size clk (stream.length + 2) stream t0 false [] 0

/-- C `pack_int16`: assemble payload bytes `index*2` (msb) and `index*2+1`
(lsb) big-endian and reinterpret as a two's-complement `int16_t`. -/
def pack_int16 (payload : List Nat) (index : Nat) : Int :=
  let v := payload.getD (index * 2) 0 * 256 + payload.getD (index * 2 + 1) 0
  if v % 65536 < 32768 then (v % 65536 : Int) else (v % 65536 : Int) - 65536

noncomputable section

/-- C macro `AHRS_GYRO_RANGE (200 * M_PI / 180)`. -/
def AHRS_GYRO_RANGE : ℝ := 200 * Real.pi / 180

/-- C macro `AHRS_G_RANGE 4`. -/
def AHRS_G_RANGE : ℝ := 4

/-- C `raw_to_angle`: `raw * M_PI / 32768.0`. -/
def raw_to_angle (raw : Int) : ℝ := raw * Real.pi / 32768

/-- C `raw_to_gyro`: `raw * 1.5 * AHRS_GYRO_RANGE / 32768.0`. -/
def raw_to_gyro (raw : Int) : ℝ := raw * 1.5 * AHRS_GYRO_RANGE / 32768

/-- C `raw_to_accel`: `raw * 1.5 * AHRS_G_RANGE * 9.8 / 32768.0`. -/
def raw_to_accel (raw : Int) : ℝ := raw * 1.5 * AHRS_G_RANGE * 9.8 / 32768

/-- C `raw_to_mag`: `raw * 1.5 * 1.25e-4 / 32768.0`. -/
def raw_to_mag (raw : Int) : ℝ := raw * 1.5 * 1.25e-4 / 32768

/-- C `raw_to_temperature`: `((raw * 5 / 4096.0) - 1.375) * 44.44`; `raw * 5`
is exact integer arithmetic, the division by `4096.0` is real. -/
def raw_to_temperature (raw : Int) : ℝ :=
  (((raw * 5 : Int) : ℝ) / 4096 - 1.375) * 44.44

/-- C `raw_to_time`: `-raw * 0.00000079`. -/
def raw_to_time (raw : Int) : ℝ := -(raw : ℝ) * 0.00000079

/-- The `fdas3_ahrs400_angle_t` record filled by `ahrs_parse_angle`. -/
@[ext]
structure Fdas3Ahrs400Angle where
  angle0 : ℝ
  angle1 : ℝ
  angle2 : ℝ
  gyro0 : ℝ
  gyro1 : ℝ
  gyro2 : ℝ
  accel0 : ℝ
  accel1 : ℝ
  accel2 : ℝ
  mag0 : ℝ
  mag1 : ℝ
  mag2 : ℝ
  temperature : ℝ
  sensor_time : ℝ

/-- C `ahrs_parse_angle`: field-by-field conversion of a 28-byte angle-mode
payload, fields 0-2 angles, 3-5 rates, 6-8 accelerations, 9-11 magnetic,
12 temperature, 13 sensor time. -/
def ahrs_parse_angle (payload : List Nat) : Fdas3Ahrs400Angle where
  angle0 := raw_to_angle (pack_int16 payload 0)
  angle1 := raw_to_angle (pack_int16 payload 1)
  angle2 := raw_to_angle (pack_int16 payload 2)
  gyro0 := raw_to_gyro (pack_int16 payload 3)
  gyro1 := raw_to_gyro (pack_int16 payload 4)
  gyro2 := raw_to_gyro (pack_int16 payload 5)
  accel0 := raw_to_accel (pack_int16 payload 6)
  accel1 := raw_to_accel (pack_int16 payload 7)
  accel2 := raw_to_accel (pack_int16 payload 8)
  mag0 := raw_to_mag (pack_int16 payload 9)
  mag1 := raw_to_mag (pack_int16 payload 10)
  mag2 := raw_to_mag (pack_int16 payload 11)
  temperature := raw_to_temperature (pack_int16 payload 12)
  sensor_time := raw_to_time (pack_int16 payload 13)

/-- The raw-field assembly exactly as the claim words it: a 16-bit signed
big-endian integer from the consecutive byte pair at field offset `index`. -/
def claim_be16_signed (payload : List Nat) (index : Nat) : Int :=
  let v := payload.getD (index * 2) 0 * 256 + payload.getD (index * 2 + 1) 0
  if v % 65536 < 32768 then (v % 65536 : Int) else (v % 65536 : Int) - 65536

/-- The conversion formulas exactly as the claim states them, applied at the
claimed field offsets; to be compared with `ahrs_parse_angle`. -/
def claim_parse_angle (payload : List Nat) : Fdas3Ahrs400Angle where
  angle0 := claim_be16_signed payload 0 * Real.pi / 32768
  angle1 := claim_be16_signed payload 1 * Real.pi / 32768
  angle2 := claim_be16_signed payload 2 * Real.pi / 32768
  gyro0 := claim_be16_signed payload 3 * 1.5 * (200 * Real.pi / 180) / 32768
  gyro1 := claim_be16_signed payload 4 * 1.5 * (200 * Real.pi / 180) / 32768
  gyro2 := claim_be16_signed payload 5 * 1.5 * (200 * Real.pi / 180) / 32768
  accel0 := claim_be16_signed payload 6 * 1.5 * 4 * 9.8 / 32768
  accel1 := claim_be16_signed payload 7 * 1.5 * 4 * 9.8 / 32768
  accel2 := claim_be16_signed payload 8 * 1.5 * 4 * 9.8 / 32768
  mag0 := claim_be16_signed payload 9 * 1.5 * 1.25e-4 / 32768
  mag1 := claim_be16_signed payload 10 * 1.5 * 1.25e-4 / 32768
  mag2 := claim_be16_signed payload 11 * 1.5 * 1.25e-4 / 32768
  temperature := (claim_be16_signed payload 12 * 5 / 4096 - 1.375) * 44.44
  sensor_time := -(claim_be16_signed payload 13 : ℝ) * 7.9e-7

end

/-- State of the serial-device interaction during the handshake: the bytes the
device will still yield, and the command bytes written so far.  Writes to the
port are modeled as always accepted. -/
structure DevIO where
  input : List Nat
  written : List Nat
deriving Repr, DecidableEq

/-- C `ahrs_set_polled`: writes `POLLED_MODE` 'P' (80) and returns 0 without
reading any response. -/
def ahrs_set_polled (s : DevIO) : Option DevIO :=
  some ⟨s.input, s.written ++ [80]⟩

/-- C `ahrs_set_continuous`: writes `CONTINUOUS_MODE` 'C' (67) and returns 0
without reading any response. -/
def ahrs_set_continuous (s : DevIO) : Option DevIO :=
  some ⟨s.input, s.written ++ [67]⟩

/-- C `ahrs_ping`: writes `PING` 'R' (82), blocks for one response byte and
succeeds iff it equals `PING_RESPONSE` 'H' (72); end-of-stream or a mismatch
returns -1, here `none`. -/
def ahrs_ping (s : DevIO) : Option DevIO :=
  match s.input with
  | [] => none
  | r :: rest =>
    if r = 72 then some ⟨rest, s.written ++ [82]⟩ else none

/-- The `ahrs_mode_t` enumeration. -/
inductive AhrsMode where
  | voltage
  | scaled
  | angle
deriving Repr, DecidableEq

/-- Command and expected-response bytes chosen by C `ahrs_set_mode`'s switch:
'r'/'R', 'c'/'C', 'a'/'A'. -/
def ahrs_mode_bytes : AhrsMode → Nat × Nat
  | .voltage => (114, 82)
  | .scaled => (99, 67)
  | .angle => (97, 65)

/-- C `ahrs_set_mode`: writes the mode command byte, blocks for one response
byte and succeeds iff it equals the mode's expected response. -/
def ahrs_set_mode (mode : AhrsMode) (s : DevIO) : Option DevIO :=
  let cmd := (ahrs_mode_bytes mode).1
  let resp := (ahrs_mode_bytes mode).2
  match s.input with
  | [] => none
  | r :: rest =>
    if r = resp then some ⟨rest, s.written ++ [cmd]⟩ else none

/-- The handshake sequence of `main` in ahrs400-read.c: polled mode, then
(after an ignored purge of stale bytes; `input` models the post-purge stream)
ping, angle measurement mode, continuous mode.  Any failing step makes `main`
return `EXIT_FAILURE` at once. -/
def main_handshake (s : DevIO) : Option DevIO :=
  (ahrs_set_polled s).bind fun s1 =>
    (ahrs_ping s1).bind fun s2 =>
      (ahrs_set_mode .angle s2).bind fun s3 => ahrs_set_continuous s3

/-- The first frame `main` obtains: `none` when the handshake failed (the
program exits before the read loop) or when the framer fails.  The read loop
calls the framer with `AHRS_ANGLE_PAYLOAD_LEN`. -/
def main_first_frame (clk : Nat → Nat) (deviceInput : List Nat) :
    Option GetMsgResult :=
  (main_handshake ⟨deviceInput, []⟩).bind fun s =>
    ahrs_get_msg AHRS_ANGLE_PAYLOAD_LEN clk s.input 0

/-- The configured sinks of ahrs400-read.c (`struct output_streams`, each
handle checked by nullability / `udp_sock > 0`). -/
structure OutputStreams where
  udp_sock : Bool
  binary_log : Bool
  text_log : Bool
deriving Repr, DecidableEq

/-- Environment choice of which sink writes succeed during one loop
iteration. -/
structure SinkHealth where
  binOk : Bool
  udpOk : Bool
  txtOk : Bool
deriving Repr, DecidableEq

/-- Observable effect of the fan-out: the buffers handed to each sink, in
order, and the number of syslog error reports. -/
structure SinkTrace where
  binWrites : List (List Nat)
  udpWrites : List (List Nat)
  txtWrites : List (List Nat)
  errors : Nat
deriving Repr, DecidableEq

/-- The empty trace at program start. -/
def emptyTrace : SinkTrace := ⟨[], [], [], 0⟩

/-- C `output_mavlink_msg`: if the binary log is open, `fwrite` the encoded
buffer (a failure is only syslogged); then, if the UDP socket is open, `send`
the same buffer (a failure is only syslogged).  Control always returns to the
caller. -/
def output_mavlink_msg (out : OutputStreams) (h : SinkHealth)
    (buf : List Nat) (tr : SinkTrace) : SinkTrace :=
  let tr1 :=
    if out.binary_log then
      { tr with
        binWrites := tr.binWrites ++ [buf]
        errors := tr.errors + (if h.binOk then 0 else 1) }
    else tr
  if out.udp_sock then
    { tr1 with
      udpWrites := tr1.udpWrites ++ [buf]
      errors := tr1.errors + (if h.udpOk then 0 else 1) }
  else tr1

/-- C `log_text`: if the text log is open, `fprintf` the tab-separated line
(a negative status is only syslogged). -/
def log_text (out : OutputStreams) (h : SinkHealth)
    (line : List Nat) (tr : SinkTrace) : SinkTrace :=
  if out.text_log then
    { tr with
      txtWrites := tr.txtWrites ++ [line]
      errors := tr.errors + (if h.txtOk then 0 else 1) }
  else tr

/-- One decoded record as emitted by the read loop of ahrs400-read.c: the
encoded raw-angle message, the encoded converted-angle message, and the text
line (the wire codec is external, so the encodings are opaque byte lists). -/
structure LoopRecord where
  rawBuf : List Nat
  angleBuf : List Nat
  textLine : List Nat

/-- One iteration of the read loop after a frame is decoded:
`output_angle_raw` then `output_angle` (each via `output_mavlink_msg`), then
`log_text`. -/
def loop_iter (out : OutputStreams) (h : SinkHealth) (r : LoopRecord)
    (tr : SinkTrace) : SinkTrace :=
  log_text out h r.textLine
    (output_mavlink_msg out h r.angleBuf
      (output_mavlink_msg out h r.rawBuf tr))

/-- The read loop over a list of decoded records, with a per-iteration sink
health chosen by the environment.  The C loop has no exit path on a sink
failure, so every record is processed. -/
def read_loop (out : OutputStreams) (health : Nat → SinkHealth) :
    List LoopRecord → Nat → SinkTrace → SinkTrace
  | [], _, tr => tr
  | r :: rest, k, tr => read_loop out health rest (k + 1)
      (loop_iter out (health k) r tr)

/-- C `get_time_us` (devices/utils.h): returns 0 when `clock_gettime` fails,
else `t.tv_sec * 1000 + t.tv_nsec / 1000` in `uint64_t` arithmetic.  The
clock reading is `none` on failure, else `(tv_sec, tv_nsec)`. -/
def get_time_us (clockReading : Option (Nat × Nat)) : Nat :=
  match clockReading with
  | none => 0
  | some (s, n) => (s * 1000 + n / 1000) % 2 ^ 64

/-- Microseconds since the epoch as the claim (and the C function's own doc
comment) states: seconds times 10^6 plus nanoseconds divided by 10^3. -/
def claim_time_us (s n : Nat) : Nat := s * 1000000 + n / 1000

/-- `htobe64`: the 8 bytes of a `uint64_t`, most significant first. -/
def htobe64 (v : Nat) : List Nat :=
  [v / 2 ^ 56 % 256, v / 2 ^ 48 % 256, v / 2 ^ 40 % 256, v / 2 ^ 32 % 256,
   v / 2 ^ 24 % 256, v / 2 ^ 16 % 256, v / 2 ^ 8 % 256, v % 256]

/-- C `logwrite` (mavlog.c): the bytes appended to the binary transcript for
one record: the 8-byte big-endian `get_time_us()` value, immediately followed
by the externally-encoded message bytes. -/
def logwrite (clockReading : Option (Nat × Nat)) (msgBuf : List Nat) :
    List Nat :=
  htobe64 (get_time_us clockReading) ++ msgBuf

/-! ### Helper lemmas -/

/-- The C `uint8_t` checksum accumulator equals the full sum reduced mod 256. -/
theorem checksum_eq_sum_mod (payload : List Nat) :
    checksum payload = payload.sum % 256 := by
  suffices h : ∀ acc, payload.foldl (fun acc b => (acc + b) % 256) (acc % 256)
      = (acc + payload.sum) % 256 by
    have := h 0
    simpa [checksum] using this
  induction payload with
  | nil => intro acc; simp
  | cons b rest ih =>
    intro acc
    have h2 := ih (acc + b)
    simp only [List.foldl_cons, List.sum_cons]
    rw [Nat.mod_add_mod, h2]
    omega

/-- Unfolding one loop iteration of the framer. -/
theorem get_msg_go_succ (size : Nat) (clk : Nat → Nat) (fuel : Nat)
    (stream : List Nat) (tick : Nat) (hf : Bool) (carried : List Nat)
    (r : Nat) :
    get_msg_go size clk (fuel + 1) stream tick hf carried r =
      get_msg_body size clk (get_msg_go size clk fuel) stream tick hf
        carried r := rfl

/-- A successful framer run starting with resync counter `r` returns at least
`r` resyncs, and its timestamp is the clock sample of the final (accepting)
iteration. -/
theorem go_some_spec (size : Nat) (clk : Nat → Nat) :
    ∀ (fuel : Nat) (stream : List Nat) (tick : Nat) (hf : Bool)
      (carried : List Nat) (r : Nat) (res : GetMsgResult),
      get_msg_go size clk fuel stream tick hf carried r = some res →
      r ≤ res.resyncs ∧ res.timestamp = clk (tick + (res.resyncs - r)) := by
  intro fuel
  induction fuel with
  | zero =>
    intro stream tick hf carried r res h
    simp [get_msg_go] at h
  | succ fuel ih =>
    intro stream tick hf carried r res h
    rw [get_msg_go_succ] at h
    simp only [get_msg_body] at h
    split at h
    · exact absurd h (by simp)
    · split at h
      · exact absurd h (by simp)
      · split at h
        · cases h
          simp
        · split at h
          · have hres := ih _ _ _ _ _ _ h
            refine ⟨by omega, ?_⟩
            rw [hres.2]
            congr 1
            omega
          · have hres := ih _ _ _ _ _ _ h
            refine ⟨by omega, ?_⟩
            rw [hres.2]
            congr 1
            omega

/-! ### C10: clock failure yields timestamp 0, indistinguishable at sinks -/

/-- C10: when the clock read fails, `get_time_us` returns 0 rather than an
error; a record logged then carries the epoch-zero timestamp, and its sink
bytes coincide with those of a validly timestamped record (a reading in the
first microsecond of the epoch produces the same 0). -/
theorem C10_clock_failure_indistinguishable :
    get_time_us none = 0 ∧ get_time_us (some (0, 999)) = 0 ∧
      logwrite none [1, 2, 3] = logwrite (some (0, 999)) [1, 2, 3] := by
  decide

/-! ### C8: the binary transcript timestamp is not microseconds -/

/-- C8: the binary-transcript sink writes the 8-byte big-endian value of
`get_time_us`, immediately followed by the message bytes — but `get_time_us`
computes `tv_sec * 1000 + tv_nsec / 1000`, not microseconds
`tv_sec * 10^6 + tv_nsec / 10^3` as both the claim and the function's own
doc comment state: at the clock reading (tv_sec = 1, tv_nsec = 0) the code
logs 1000 where the documented value is 1000000. -/
theorem C8_transcript_timestamp_bug :
    logwrite (some (1, 0)) [5, 6] = htobe64 1000 ++ [5, 6] ∧
      get_time_us (some (1, 0)) = 1000 ∧
      claim_time_us 1 0 = 1000000 ∧
      get_time_us (some (1, 0)) ≠ claim_time_us 1 0 := by
  decide

/-! ### C9: orientation angle range -/

/-- C9: for every 16-bit signed raw value, the orientation-angle conversion
`raw_to_angle` lies in the closed interval [-pi, pi]. -/
theorem C9_angle_in_range (raw : Int) (h1 : -32768 ≤ raw)
    (h2 : raw ≤ 32767) :
    -Real.pi ≤ raw_to_angle raw ∧ raw_to_angle raw ≤ Real.pi := by
  have hpi := Real.pi_pos
  have h1r : (-32768 : ℝ) ≤ (raw : ℝ) := by exact_mod_cast h1
  have h2r : (raw : ℝ) ≤ 32767 := by exact_mod_cast h2
  unfold raw_to_angle
  constructor
  · rw [le_div_iff₀ (by norm_num : (0 : ℝ) < 32768)]
    nlinarith [mul_nonneg (by linarith : (0 : ℝ) ≤ (raw : ℝ) + 32768) hpi.le]
  · rw [div_le_iff₀ (by norm_num : (0 : ℝ) < 32768)]
    nlinarith [mul_nonneg (by linarith : (0 : ℝ) ≤ 32768 - (raw : ℝ)) hpi.le]

/-- Witness for C9 at the raw value 0. -/
theorem C9_angle_in_range_witness :
    -Real.pi ≤ raw_to_angle 0 ∧ raw_to_angle 0 ≤ Real.pi :=
  C9_angle_in_range 0 (by decide) (by decide)

/-! ### C5: handshake transitions -/

/-- C5 counterexample: with a pending mismatched response byte 0x00, the
continuous-mode and polled-mode transitions succeed anyway, write their one
command byte, and read nothing — refuting that every handshake transition
blocks for one response byte and fails on a mismatched response. -/
theorem C5_counterexample :
    ahrs_set_continuous ⟨[0], []⟩ = some ⟨[0], [67]⟩ ∧
      ahrs_set_polled ⟨[0], []⟩ = some ⟨[0], [80]⟩ := by
  decide

/-- C5 (amended): the ping and measurement-mode transitions write exactly one
command byte, block for exactly one response byte and fail on mismatch or
end-of-stream; the polled-mode and continuous-mode transitions write exactly
one command byte and succeed without reading any response; and a failed
handshake aborts the program before the read loop, so no frame is read. -/
theorem C5_handshake_transitions :
    (∀ s : DevIO, ahrs_set_polled s = some ⟨s.input, s.written ++ [80]⟩) ∧
    (∀ s : DevIO,
      ahrs_set_continuous s = some ⟨s.input, s.written ++ [67]⟩) ∧
    (∀ s : DevIO, ahrs_ping s =
      if s.input.head? = some 72 then some ⟨s.input.tail, s.written ++ [82]⟩
      else none) ∧
    (∀ s : DevIO, ahrs_set_mode .angle s =
      if s.input.head? = some 65 then some ⟨s.input.tail, s.written ++ [97]⟩
      else none) ∧
    (∀ (clk : Nat → Nat) (input : List Nat),
      main_handshake ⟨input, []⟩ = none → main_first_frame clk input = none) := by
  refine ⟨fun s => rfl, fun s => rfl, fun s => ?_, fun s => ?_,
    fun clk input h => ?_⟩
  · obtain ⟨inp, w⟩ := s
    cases inp with
    | nil => simp [ahrs_ping]
    | cons r rest =>
      by_cases hr : r = 72 <;> simp [ahrs_ping, hr]
  · obtain ⟨inp, w⟩ := s
    cases inp with
    | nil => simp [ahrs_set_mode]
    | cons r rest =>
      by_cases hr : r = 65 <;> simp [ahrs_set_mode, ahrs_mode_bytes, hr]
  · simp [main_first_frame, h]

/-- Witness for C5 at concrete device states: a continuous-mode transition
with a pending byte, and a failing handshake (ping response 0x00 instead of
'H') after which no frame is read. -/
theorem C5_handshake_transitions_witness :
    ahrs_set_continuous ⟨[72], [80]⟩ = some ⟨[72], [80, 67]⟩ ∧
      main_first_frame (fun t => t) [0] = none :=
  ⟨C5_handshake_transitions.2.1 ⟨[72], [80]⟩,
    C5_handshake_transitions.2.2.2.2 (fun t => t) [0] (by decide)⟩

/-! ### C6: fan-out isolation -/

/-- The encoded messages the binary log and the UDP socket should each
receive from a record sequence: for every record, the raw-angle message then
the converted-angle message, in loop order. -/
def encoded_msgs : List LoopRecord → List (List Nat)
  | [] => []
  | r :: rest => r.rawBuf :: r.angleBuf :: encoded_msgs rest

/-- The lines the text log should receive from a record sequence. -/
def text_lines : List LoopRecord → List (List Nat)
  | [] => []
  | r :: rest => r.textLine :: text_lines rest

/-- One loop iteration appends to each configured sink exactly its own data,
regardless of which writes fail. -/
theorem loop_iter_writes (out : OutputStreams) (h : SinkHealth)
    (r : LoopRecord) (tr : SinkTrace) :
    (loop_iter out h r tr).binWrites = tr.binWrites ++
        (if out.binary_log then [r.rawBuf, r.angleBuf] else []) ∧
      (loop_iter out h r tr).udpWrites = tr.udpWrites ++
        (if out.udp_sock then [r.rawBuf, r.angleBuf] else []) ∧
      (loop_iter out h r tr).txtWrites = tr.txtWrites ++
        (if out.text_log then [r.textLine] else []) := by
  simp only [loop_iter, output_mavlink_msg, log_text]
  by_cases hb : out.binary_log <;> by_cases hu : out.udp_sock <;>
    by_cases ht : out.text_log <;> simp [hb, hu, ht]

/-- The read loop delivers to each configured sink exactly its own record
data, appended in order to whatever the trace held, independently of every
write outcome. -/
theorem read_loop_writes (out : OutputStreams) (health : Nat → SinkHealth) :
    ∀ (records : List LoopRecord) (k : Nat) (tr : SinkTrace),
      (read_loop out health records k tr).binWrites = tr.binWrites ++
          (if out.binary_log then encoded_msgs records else []) ∧
        (read_loop out health records k tr).udpWrites = tr.udpWrites ++
          (if out.udp_sock then encoded_msgs records else []) ∧
        (read_loop out health records k tr).txtWrites = tr.txtWrites ++
          (if out.text_log then text_lines records else []) := by
  intro records
  induction records with
  | nil => intro k tr; simp [read_loop, encoded_msgs, text_lines]
  | cons r rest ih =>
    intro k tr
    simp only [read_loop]
    have hiter := loop_iter_writes out (health k) r tr
    have hrest := ih (k + 1) (loop_iter out (health k) r tr)
    refine ⟨?_, ?_, ?_⟩
    · rw [hrest.1, hiter.1]
      by_cases hb : out.binary_log <;> simp [hb, encoded_msgs]
    · rw [hrest.2.1, hiter.2.1]
      by_cases hu : out.udp_sock <;> simp [hu, encoded_msgs]
    · rw [hrest.2.2, hiter.2.2]
      by_cases ht : out.text_log <;> simp [ht, text_lines]

/-- C6: for every record sequence, sink configuration and pattern of write
failures, each configured sink receives exactly its own full record sequence
in order — one sink's failures never change what another configured sink is
handed, and the loop processes every record (it never terminates on a sink
error; a failure only increments the syslog error count). -/
theorem C6_fanout_isolation (out : OutputStreams)
    (health : Nat → SinkHealth) (records : List LoopRecord) :
    (read_loop out health records 0 emptyTrace).binWrites =
        (if out.binary_log then encoded_msgs records else []) ∧
      (read_loop out health records 0 emptyTrace).udpWrites =
        (if out.udp_sock then encoded_msgs records else []) ∧
      (read_loop out health records 0 emptyTrace).txtWrites =
        (if out.text_log then text_lines records else []) := by
  have h := read_loop_writes out health records 0 emptyTrace
  simpa [emptyTrace] using h


/-- Reduction of one loop iteration once the header-search step is settled:
`stream1` is the stream just after the (carried or freshly found) header. -/
theorem get_msg_body_some (size : Nat) (clk : Nat → Nat)
    (continue_ : List Nat → Nat → Bool → List Nat → Nat → Option GetMsgResult)
    (stream : List Nat) (tick : Nat) (hf : Bool) (carried : List Nat)
    (r : Nat) (stream1 : List Nat)
    (hs : (if hf then some stream else ahrs_search_header stream) =
      some stream1) :
    get_msg_body size clk continue_ stream tick hf carried r =
      (if size + 1 - carried.length = 0 ∨
          stream1.length < size + 1 - carried.length then none
       else
         if checksum ((carried ++
               stream1.take (size + 1 - carried.length)).take size) =
             (carried ++ stream1.take (size + 1 - carried.length)).getD size 0
         then
           some ⟨(carried ++ stream1.take (size + 1 - carried.length)).take
               size, clk tick, stream1.drop (size + 1 - carried.length), r⟩
         else
           match find_header_idx
               (carried ++ stream1.take (size + 1 - carried.length)) with
           | some i =>
             continue_ (stream1.drop (size + 1 - carried.length)) (tick + 1)
               true
               (((carried ++
                   stream1.take (size + 1 - carried.length)).drop (i + 1)).take
                 ((size - i) % 256)) (r + 1)
           | none =>
             continue_ (stream1.drop (size + 1 - carried.length)) (tick + 1)
               false [] (r + 1)) := by
  unfold get_msg_body
  rw [hs]

/-! ### C7: reception timestamp -/

/-- C7: an accepted frame's timestamp is the clock sample taken at the start
of the iteration that established its header (sample index `t0 + resyncs`):
for an unresynced frame it is the sample taken right after its header byte
was consumed and before any payload byte was read, and every resync discards
the earlier capture and replaces it with a fresh sample for the shifted
buffer. -/
theorem C7_timestamp_per_frame (size : Nat) (clk : Nat → Nat)
    (stream : List Nat) (t0 : Nat) (res : GetMsgResult)
    (h : ahrs_get_msg size clk stream t0 = some res) :
    res.timestamp = clk (t0 + res.resyncs) := by
  unfold ahrs_get_msg at h
  have hs := go_some_spec size clk _ _ _ _ _ _ _ h
  simpa using hs.2

/-- Witness for C7: a clean one-frame stream, accepted with no resync and
timestamped with clock sample 0. -/
theorem C7_timestamp_per_frame_witness :
    (⟨[1, 2], 100, [], 0⟩ : GetMsgResult).timestamp =
      (fun t => t + 100) (0 + (⟨[1, 2], 100, [], 0⟩ : GetMsgResult).resyncs) :=
  C7_timestamp_per_frame 2 (fun t => t + 100) [255, 1, 2, 3] 0
    ⟨[1, 2], 100, [], 0⟩ (by decide)

/-! ### C1: acceptance is exactly the checksum test over the payload -/

/-- C1: after the header byte (never part of the sum) is consumed, a buffered
candidate of `N` payload bytes plus one trailing byte is accepted — with the
payload returned, the stream advanced just past the candidate and no resync —
if and only if the low 8 bits of the sum of the `N` payload bytes equal the
trailing byte. -/
theorem C1_accept_iff_checksum (N : Nat) (payload : List Nat) (chk : Nat)
    (rest : List Nat) (clk : Nat → Nat) (t0 : Nat)
    (hlen : payload.length = N) :
    ahrs_get_msg N clk (255 :: (payload ++ chk :: rest)) t0 =
        some ⟨payload, clk t0, rest, 0⟩ ↔ payload.sum % 256 = chk := by
  subst hlen
  have hfuel : (255 :: (payload ++ chk :: rest)).length + 2 =
      (payload.length + rest.length + 3) + 1 := by
    simp [List.length_cons, List.length_append]
    omega
  have htake : (payload ++ chk :: rest).take (payload.length + 1) =
      payload ++ [chk] := by
    have h1 := @List.take_append _ payload (chk :: rest) 1
    simpa using h1
  have hdrop : (payload ++ chk :: rest).drop (payload.length + 1) = rest := by
    simp
  have htake2 : (payload ++ [chk]).take payload.length = payload := by
    rw [List.take_append_of_le_length (Nat.le_refl _), List.take_length]
  have hgetD : (payload ++ [chk]).getD payload.length 0 = chk := by
    rw [List.getD_append_right _ _ _ _ (Nat.le_refl _)]
    simp
  unfold ahrs_get_msg
  rw [hfuel, get_msg_go_succ,
    get_msg_body_some payload.length clk
      (get_msg_go payload.length clk (payload.length + rest.length + 3))
      (255 :: (payload ++ chk :: rest)) t0 false [] 0
      (payload ++ chk :: rest) rfl]
  simp only [List.length_nil, Nat.sub_zero, List.nil_append]
  rw [if_neg (by simp)]
  rw [htake, hdrop, htake2, hgetD, checksum_eq_sum_mod]
  by_cases hc : payload.sum % 256 = chk
  · rw [if_pos hc]
    simp [hc]
  · rw [if_neg hc]
    constructor
    · intro hcon
      exfalso
      cases hfind : find_header_idx (payload ++ [chk]) with
      | none =>
        rw [hfind] at hcon
        have h1 := (go_some_spec _ _ _ _ _ _ _ _ _ hcon).1
        simp at h1
      | some i =>
        rw [hfind] at hcon
        have h1 := (go_some_spec _ _ _ _ _ _ _ _ _ hcon).1
        simp at h1
    · intro hx
      exact absurd hx hc

/-- Witness for C1 at a concrete accepted and checksum-correct frame. -/
theorem C1_accept_iff_checksum_witness :
    ([1, 2] : List Nat).length = 2 ∧
      (ahrs_get_msg 2 (fun t => t + 7) (255 :: ([1, 2] ++ 3 :: [9])) 0 =
          some ⟨[1, 2], 7, [9], 0⟩ ↔ ([1, 2] : List Nat).sum % 256 = 3) :=
  ⟨rfl, C1_accept_iff_checksum 2 [1, 2] 3 [9] (fun t => t + 7) 0 rfl⟩

/-! ### Resync behavior (C2, C3) -/

/-- The buffer rescan finds exactly the first header byte, scanning from
position 0. -/
theorem find_header_idx_first :
    ∀ (l : List Nat) (i : Nat), i < l.length →
      l.getD i 0 = AHRS_DATA_HEADER →
      (∀ j, j < i → l.getD j 0 ≠ AHRS_DATA_HEADER) →
      find_header_idx l = some i := by
  intro l
  induction l with
  | nil => intro i hi _ _; simp at hi
  | cons b rest ih =>
    intro i hi hhdr hfirst
    cases i with
    | zero =>
      simp only [List.getD_cons_zero] at hhdr
      simp [find_header_idx, hhdr]
    | succ i =>
      have hb : b ≠ AHRS_DATA_HEADER := by
        have h0 := hfirst 0 (Nat.succ_pos _)
        simpa using h0
      have hrest := ih i (by simp only [List.length_cons] at hi; omega)
        (by simpa using hhdr)
        (fun j hj => by
          have hsh := hfirst (j + 1) (by omega)
          simpa using hsh)
      simp [find_header_idx, hb, hrest]

/-- After a failed checksum with the first buffered header byte at offset `i`
(any offset, position 0 included), one resync accepts the refilled frame when
its checksum passes: the framer keeps bytes `i+1 .. N` of the work buffer,
reads exactly the `i+1` bytes still needed from the source, consumes the byte
at offset `i` as the new header, re-times the frame with the next clock
sample, and returns the refilled payload.  `N ≤ 255` keeps the `uint8_t`
cursor `work_ptr = size - i` from wrapping. -/
theorem resync_first_header (N : Nat) (clk : Nat → Nat) (t0 : Nat)
    (buf S : List Nat) (i : Nat) (hN : N ≤ 255) (hbuf : buf.length = N + 1)
    (hi : i ≤ N) (hhdr : buf.getD i 0 = AHRS_DATA_HEADER)
    (hfirst : ∀ j, j < i → buf.getD j 0 ≠ AHRS_DATA_HEADER)
    (hfail : checksum (buf.take N) ≠ buf.getD N 0)
    (hS : i + 1 ≤ S.length)
    (hvalid : checksum ((buf.drop (i + 1) ++ S.take (i + 1)).take N) =
      (buf.drop (i + 1) ++ S.take (i + 1)).getD N 0) :
    ahrs_get_msg N clk (255 :: (buf ++ S)) t0 =
      some ⟨(buf.drop (i + 1) ++ S.take (i + 1)).take N, clk (t0 + 1),
        S.drop (i + 1), 1⟩ := by
  have hfuel : (255 :: (buf ++ S)).length + 2 = (N + S.length + 3) + 1 := by
    simp [List.length_cons, List.length_append, hbuf]
    omega
  have htake1 : (buf ++ S).take (N + 1) = buf := by
    rw [← hbuf]
    exact List.take_left buf S
  have hdrop1 : (buf ++ S).drop (N + 1) = S := by
    rw [← hbuf]
    exact List.drop_left buf S
  have hfind : find_header_idx buf = some i :=
    find_header_idx_first buf i (by omega) hhdr hfirst
  have hcarried : (buf.drop (i + 1)).take ((N - i) % 256) =
      buf.drop (i + 1) := by
    rw [Nat.mod_eq_of_lt (by omega)]
    have hl : (buf.drop (i + 1)).length = N - i := by
      rw [List.length_drop, hbuf]
      omega
    rw [← hl, List.take_length]
  have hneed2 : N + 1 - (buf.drop (i + 1)).length = i + 1 := by
    rw [List.length_drop, hbuf]
    omega
  unfold ahrs_get_msg
  rw [hfuel, get_msg_go_succ,
    get_msg_body_some N clk (get_msg_go N clk (N + S.length + 3))
      (255 :: (buf ++ S)) t0 false [] 0 (buf ++ S) rfl]
  simp only [List.length_nil, Nat.sub_zero, List.nil_append]
  rw [if_neg (by rw [List.length_append, hbuf]; omega)]
  rw [htake1, hdrop1]
  rw [if_neg hfail]
  simp only [hfind, hcarried, Nat.zero_add]
  rw [show N + S.length + 3 = (N + S.length + 2) + 1 from rfl,
    get_msg_go_succ,
    get_msg_body_some N clk (get_msg_go N clk (N + S.length + 2)) S (t0 + 1)
      true (buf.drop (i + 1)) 1 S rfl]
  rw [hneed2]
  rw [if_neg (by omega)]
  rw [if_pos hvalid]

set_option maxRecDepth 4000 in
/-- C2 counterexample: an instance of the claimed scenario at payload length
N = 256: a header, then an N+1-byte corrupt buffer (checksum fails) whose
first header byte sits at offset 0, then exactly the one byte needed to
refill the buffer into a checksum-valid frame.  The claim predicts one
accepted frame; the code returns an error instead, because the `uint8_t`
cursor `work_ptr = sizeof(work) - i - 1 = 256` wraps to 0, the carried bytes
are forgotten, and the loop tries to re-read all 257 buffer bytes from a
source that only holds the 1 still-needed byte. -/
theorem C2_counterexample :
    checksum ((255 :: List.replicate 256 0).take 256) ≠
        (255 :: List.replicate 256 0).getD 256 0 ∧
      (255 :: List.replicate 256 0).getD 0 0 = AHRS_DATA_HEADER ∧
      checksum ((((255 :: List.replicate 256 0).drop 1) ++
            [0].take 1).take 256) =
        (((255 :: List.replicate 256 0).drop 1) ++ [0].take 1).getD 256 0 ∧
      ahrs_get_msg 256 (fun t => t)
        (255 :: ((255 :: List.replicate 256 0) ++ [0])) 0 = none := by
  decide

/-- C2 (amended: for payload lengths N up to 255, within the range of the
`uint8_t` buffer cursor): in the claimed scenario — header byte, then N+1
buffered bytes whose checksum fails but whose first header byte sits at
offset `i`, then the rest of a valid frame — the framer returns exactly one
frame, the valid one, after exactly one resync; the byte at the found header
offset is consumed as the new header (the returned payload starts at offset
`i+1`); and the source is read only for the `i+1` bytes still needed to
refill the buffer (the remaining stream is exactly `S.drop (i+1)`), never
re-reading the bytes already buffered. -/
theorem C2_resync_exactly_one_frame (N : Nat) (clk : Nat → Nat) (t0 : Nat)
    (buf S : List Nat) (i : Nat) (hN : N ≤ 255) (hbuf : buf.length = N + 1)
    (hi : i ≤ N) (hhdr : buf.getD i 0 = AHRS_DATA_HEADER)
    (hfirst : ∀ j, j < i → buf.getD j 0 ≠ AHRS_DATA_HEADER)
    (hfail : checksum (buf.take N) ≠ buf.getD N 0)
    (hS : i + 1 ≤ S.length)
    (hvalid : checksum ((buf.drop (i + 1) ++ S.take (i + 1)).take N) =
      (buf.drop (i + 1) ++ S.take (i + 1)).getD N 0) :
    ahrs_get_msg N clk (255 :: (buf ++ S)) t0 =
      some ⟨(buf.drop (i + 1) ++ S.take (i + 1)).take N, clk (t0 + 1),
        S.drop (i + 1), 1⟩ :=
  resync_first_header N clk t0 buf S i hN hbuf hi hhdr hfirst hfail hS hvalid

/-- Witness for C2: N = 2, corrupt buffer [9, 255, 9] with its header at
offset 1, refilled from the source bytes [1, 10]; one resync, payload
[9, 1], one byte [77] left unread. -/
theorem C2_resync_exactly_one_frame_witness :
    ahrs_get_msg 2 (fun t => t) (255 :: ([9, 255, 9] ++ [1, 10, 77])) 0 =
      some ⟨[9, 1], 1, [77], 1⟩ :=
  C2_resync_exactly_one_frame 2 (fun t => t) 0 [9, 255, 9] [1, 10, 77] 1
    (by decide) (by decide) (by decide) (by decide)
    (fun j hj => by
      have hj0 : j = 0 := by omega
      subst hj0
      decide)
    (by decide) (by decide) (by decide)

/-- C3 counterexample: the rescan does not exclude position 0.  Work buffer
[255, 0, 5] fails its checksum (255 ≠ 5) and its only header byte is at
position 0; were position 0 excluded, no header would be found, the buffer
would be discarded and the live stream [5] rescanned, failing at end of
stream.  Instead the code selects position 0 as the new frame start and
accepts the frame [0, 5] refilled with the last stream byte, after one
resync. -/
theorem C3_counterexample :
    checksum ([255, 0, 5].take 2) ≠ [255, 0, 5].getD 2 0 ∧
      [255, 0, 5].getD 0 0 = AHRS_DATA_HEADER ∧
      (∀ j : Fin 3, j.val ≠ 0 → [255, 0, 5].getD j.val 0 ≠ AHRS_DATA_HEADER) ∧
      ahrs_get_msg 2 (fun t => t) [255, 255, 0, 5, 5] 0 =
        some ⟨[0, 5], 1, [], 1⟩ := by
  decide

/-- C3 (amended): the rescan of the N+1 buffered bytes scans from position 0
inclusive: a header-valued byte at position 0 of the work buffer is selected
as the new frame start, its following N bytes are kept, and one byte is read
to refill the buffer. -/
theorem C3_rescan_includes_position_zero (N : Nat) (clk : Nat → Nat)
    (t0 : Nat) (buf S : List Nat) (hN : N ≤ 255) (hbuf : buf.length = N + 1)
    (hhdr : buf.getD 0 0 = AHRS_DATA_HEADER)
    (hfail : checksum (buf.take N) ≠ buf.getD N 0)
    (hS : 1 ≤ S.length)
    (hvalid : checksum ((buf.drop 1 ++ S.take 1).take N) =
      (buf.drop 1 ++ S.take 1).getD N 0) :
    ahrs_get_msg N clk (255 :: (buf ++ S)) t0 =
      some ⟨(buf.drop 1 ++ S.take 1).take N, clk (t0 + 1), S.drop 1, 1⟩ :=
  resync_first_header N clk t0 buf S 0 hN hbuf (Nat.zero_le N) hhdr
    (fun j hj => absurd hj (Nat.not_lt_zero j)) hfail hS hvalid

/-- Witness for C3 at the concrete buffer [255, 0, 5] with source [5]. -/
theorem C3_rescan_includes_position_zero_witness :
    ahrs_get_msg 2 (fun t => t) (255 :: ([255, 0, 5] ++ [5])) 0 =
      some ⟨[0, 5], 1, [], 1⟩ :=
  C3_rescan_includes_position_zero 2 (fun t => t) 0 [255, 0, 5] [5]
    (by decide) (by decide) (by decide) (by decide) (by decide) (by decide)

/-! ### C4: the unit conversion formulas -/

/-- C4: `ahrs_parse_angle` is a pure function of the 28-byte payload (a plain
function of its argument, no other state), and it equals, field for field,
the claim's specification: each raw field assembled as a 16-bit signed
big-endian integer from the consecutive byte pair at its fixed offset
(fields 0-2 angles, 3-5 rates, 6-8 accelerations, 9-11 magnetic,
12 temperature, 13 sensor time), converted by exactly the claimed
formulas. -/
theorem C4_parse_angle_formulas (payload : List Nat)
    (_h : payload.length = 28) :
    ahrs_parse_angle payload = claim_parse_angle payload := by
  ext <;>
    simp [ahrs_parse_angle, claim_parse_angle, raw_to_angle, raw_to_gyro,
      raw_to_accel, raw_to_mag, raw_to_temperature, raw_to_time,
      AHRS_GYRO_RANGE, AHRS_G_RANGE, pack_int16, claim_be16_signed]

/-- Witness for C4 at the all-zero 28-byte payload. -/
theorem C4_parse_angle_formulas_witness :
    (List.replicate 28 0).length = 28 ∧
      ahrs_parse_angle (List.replicate 28 0) =
        claim_parse_angle (List.replicate 28 0) :=
  ⟨by decide, C4_parse_angle_formulas (List.replicate 28 0) (by decide)⟩
